import Mathlib

/-!
Shallow embedding of the go-laravel-long-polling service core.

Sources embedded:
- internal/redis/subscriber.go : the fan-out registry (Subscribe, Unsubscribe,
  handleMessage) guarding a map channelID -> slice of buffered Go channels with
  a readers-writer lock.
- internal/core (LaravelUpstreamPool.GetEvents in the core package) : the
  bounded-concurrency upstream pool built on a buffered-channel semaphore.
- internal/http/handlers.go (Handlers.GetUpdates) : the per-request poll
  protocol, after token validation and query parsing.
- cmd main (registerHooks) : the reconnect supervisor goroutine with
  exponential backoff.

Go channels are modelled by queue identifiers (Nat) allocated by a counter;
buffered-channel contents are a function from identifier to the list of
buffered items.  Go's map `handlers` is an association list with the map
semantics used by the code: reading an absent key yields the zero value (nil
slice, modelled as the empty list), assignment replaces or inserts, delete
removes the key.  The readers-writer lock makes each delivery sweep atomic
with respect to each Subscribe/Unsubscribe, so concurrent executions are
exactly the sequences of atomic registry operations modelled by regStep.
-/

namespace LongPoll

/-- EventNotification from internal/redis/subscriber.go: the payload parsed
from a Redis pub/sub message. -/
structure EventNotification where
  channelID : String
  eventID : Int
  timestamp : Int
deriving DecidableEq

/-- The registry map of Subscriber.handlers: channelID mapped to the slice of
notification queues (Go channels, modelled by their identifiers). -/
abbrev Handlers := List (String × List Nat)

/-- Read s.handlers at a key, with Go map semantics: an absent key reads as the
nil slice, i.e. the empty list. -/
def lookupHandlers : Handlers → String → List Nat
  | [], _ => []
  | p :: rest, cid => if p.1 = cid then p.2 else lookupHandlers rest cid

/-- Go map assignment s.handlers at key cid becomes qs: replace the entry if
the key is present, insert it otherwise. -/
def setHandlers : Handlers → String → List Nat → Handlers
  | [], cid, qs => [(cid, qs)]
  | p :: rest, cid, qs =>
      if p.1 = cid then (cid, qs) :: rest else p :: setHandlers rest cid qs

/-- Go built-in delete on the handlers map (a no-op when the key is absent). -/
def deleteKey : Handlers → String → Handlers
  | [], _ => []
  | p :: rest, cid =>
      if p.1 = cid then deleteKey rest cid else p :: deleteKey rest cid

/-- The Unsubscribe loop: scan the slice for the first queue equal to ch,
remove it, and report whether it was found (Go breaks after the first hit). -/
def removeFirst : List Nat → Nat → List Nat × Bool
  | [], _ => ([], false)
  | q :: rest, ch =>
      if q = ch then (rest, true)
      else
        let r := removeFirst rest ch
        (q :: r.1, r.2)

/-- Registry state of the Subscriber: the handlers map, a fresh-queue counter
standing for Go channel allocation (make chan), and the list of queues on
which close has been called. -/
structure SubscriberState where
  handlers : Handlers
  nextId : Nat
  closed : List Nat
deriving DecidableEq

/-- Subscriber.Subscribe: under the write lock, allocate a fresh buffered
queue, append it to the channel's slice, and hand it to the caller. -/
def subscribe (s : SubscriberState) (cid : String) : SubscriberState × Nat :=
  let ch := s.nextId
  ({ handlers := setHandlers s.handlers cid (lookupHandlers s.handlers cid ++ [ch])
     nextId := ch + 1
     closed := s.closed }, ch)

/-- Subscriber.Unsubscribe: under the write lock, remove the first occurrence
of ch from the channel's slice and close it (only when found); then, if the
remaining slice is empty, delete the map entry. -/
def unsubscribe (s : SubscriberState) (cid : String) (ch : Nat) : SubscriberState :=
  let hs := lookupHandlers s.handlers cid
  let r := removeFirst hs ch
  let m1 := if r.2 then setHandlers s.handlers cid r.1 else s.handlers
  let cl := if r.2 then ch :: s.closed else s.closed
  let m2 := if lookupHandlers m1 cid = [] then deleteKey m1 cid else m1
  { handlers := m2, nextId := s.nextId, closed := cl }

/-- Capacity of a delivery queue: Subscribe does make (chan EventNotification, 10). -/
def queueCapacity : Nat := 10

/-- Non-blocking send on a buffered queue, as the select with a default case in
handleMessage: enqueue when the buffer has room, otherwise drop the event. -/
def trySend (q : List EventNotification) (n : EventNotification) : List EventNotification :=
  if q.length < queueCapacity then q ++ [n] else q

/-- The delivery loop of handleMessage over the slice of registered queues:
attempt a non-blocking send to each queue in order. -/
def deliverList (contents : Nat → List EventNotification) (n : EventNotification) :
    List Nat → (Nat → List EventNotification)
  | [] => contents
  | q :: rest =>
      deliverList (fun i => if i = q then trySend (contents q) n else contents i) n rest

/-- Registry state together with the buffered contents of every queue. -/
structure RegState where
  handlers : Handlers
  contents : Nat → List EventNotification

/-- Subscriber.handleMessage after a successful parse: under the read lock,
look up the registrations of the event's channel and sweep a non-blocking
send to each.  The handlers map is not modified. -/
def handleMessage (st : RegState) (n : EventNotification) : RegState :=
  { handlers := st.handlers
    contents := deliverList st.contents n (lookupHandlers st.handlers n.channelID) }

/-- All queue identifiers registered anywhere in the handlers map. -/
def allQueues : Handlers → List Nat
  | [] => []
  | p :: rest => p.2 ++ allQueues rest

/-- Invariant of every reachable Subscriber state: registered queues were
allocated by the counter, and no queue is registered twice (each Subscribe
makes a brand-new Go channel). -/
def RegistryInv (s : SubscriberState) : Prop :=
  (∀ q ∈ allQueues s.handlers, q < s.nextId) ∧ (allQueues s.handlers).Nodup

/-- Atomic operations on the registry.  The readers-writer lock serializes
each whole delivery sweep (read lock held for its entire duration) against
each Subscribe/Unsubscribe (write lock), so any concurrent execution is a
sequence of these. -/
inductive RegOp where
  | sub (cid : String)
  | unsub (cid : String) (q : Nat)
  | deliver (n : EventNotification)
deriving DecidableEq

/-- Effect of one atomic registry operation on the Subscriber state (a
delivery sweep never changes the handlers map). -/
def regStep (s : SubscriberState) : RegOp → SubscriberState
  | .sub cid => (subscribe s cid).1
  | .unsub cid q => unsubscribe s cid q
  | .deliver _ => s

/-- Queues on which one operation attempts a send: a delivery sweep sends (or
drops) on exactly the queues registered for the event's channel at that
moment. -/
def sendsOf (s : SubscriberState) : RegOp → List Nat
  | .deliver n => lookupHandlers s.handlers n.channelID
  | _ => []

/-- All queues receiving a send attempt along a sequence of atomic registry
operations started in state s. -/
def allSends (s : SubscriberState) : List RegOp → List Nat
  | [] => []
  | op :: ops => sendsOf s op ++ allSends (regStep s op) ops

/-- A queue is retired when it is no longer registered anywhere and its
identifier has already been allocated (so a later Subscribe cannot recreate
it: Go never reuses a channel value). -/
def retired (s : SubscriberState) (q : Nat) : Prop :=
  q ∉ allQueues s.handlers ∧ q < s.nextId

/-- Event from the core package: one event page entry returned by Laravel.
The JSON object payload is opaque to this core and carried as a string. -/
structure Event where
  id : Int
  payload : String
  createdAt : Int
deriving DecidableEq

/-- Observable steps of LaravelUpstreamPool.GetEvents, in execution order. -/
inductive PoolStep where
  | acquirePermit
  | clampLimit (l : Nat)
  | httpRequest (cid : String) (offset : Int) (limit : Nat)
  | releasePermit
deriving DecidableEq

/-- Outcome of the single backend round trip, mirroring the three failure
branches of GetEvents (transport error, non-200 status, JSON decode error). -/
inductive BackendReply where
  | okReply (evs : List Event)
  | transportErr
  | badStatus
  | malformedBody
deriving DecidableEq

/-- Environment of one GetEvents call: whether a permit becomes free before
the caller's context is done, and what the backend answers. -/
structure PoolEnv where
  permitAvailable : Bool
  reply : BackendReply
deriving DecidableEq

/-- Result of GetEvents: the event page, the context error taken when no
permit arrived in time (the spec's PoolExhausted/Canceled), or an
UpstreamError from the round trip. -/
inductive UpstreamResult where
  | events (evs : List Event)
  | poolExhausted
  | upstreamFailure
deriving DecidableEq

/-- LaravelUpstreamPool.GetEvents: select on the semaphore versus ctx.Done
(no network call when the context wins); then clamp the limit to the pool
cap, issue the one request with the clamped limit, and release the permit on
every exit path (deferred receive on the semaphore).  Returns the result
together with the ordered trace of observable steps. -/
def getEvents (maxLimit : Nat) (env : PoolEnv) (cid : String) (offset : Int)
    (limit : Nat) : UpstreamResult × List PoolStep :=
  if env.permitAvailable then
    let l := if limit > maxLimit then maxLimit else limit
    let res : UpstreamResult :=
      match env.reply with
      | .okReply evs => .events evs
      | .transportErr => .upstreamFailure
      | .badStatus => .upstreamFailure
      | .malformedBody => .upstreamFailure
    (res, [PoolStep.acquirePermit, PoolStep.clampLimit l,
           PoolStep.httpRequest cid offset l, PoolStep.releasePermit])
  else
    (.poolExhausted, [])

/-- Classifier for the clamp step of a pool trace. -/
def isClampStep : PoolStep → Bool
  | .clampLimit _ => true
  | _ => false

/-- Classifier for the permit-acquisition step of a pool trace. -/
def isAcquireStep : PoolStep → Bool
  | .acquirePermit => true
  | _ => false

/-- Semaphore events: a successful send into the workers-sized buffered
channel, and the deferred receive from it. -/
inductive SemEvent where
  | acquire
  | release
deriving DecidableEq

/-- Semantics of the buffered-channel semaphore of capacity n holding s
permits: a send succeeds only while the buffer has room (otherwise the
sender blocks, so no state with more than n permits is reachable); a receive
needs an outstanding permit. -/
def semStep (n : Nat) (s : Nat) : SemEvent → Option Nat
  | .acquire => if s < n then some (s + 1) else none
  | .release => if 0 < s then some (s - 1) else none

/-- Run a sequence of semaphore events from s permits outstanding. -/
def semRun (n : Nat) (s : Nat) : List SemEvent → Option Nat
  | [] => some s
  | e :: es =>
      match semStep n s e with
      | some s1 => semRun n s1 es
      | none => none

/-- Semaphore events performed by a GetEvents trace. -/
def semEventsOf : List PoolStep → List SemEvent
  | [] => []
  | .acquirePermit :: rest => SemEvent.acquire :: semEventsOf rest
  | .releasePermit :: rest => SemEvent.release :: semEventsOf rest
  | _ :: rest => semEventsOf rest

/-- Outcome of the race in Handlers.GetUpdates between the poll timeout
context and the notification queue. -/
inductive RaceResult where
  | timeout
  | notified (n : EventNotification)
deriving DecidableEq

/-- HTTP response produced by GetUpdates after authentication: a 200 with an
events array, or a 500 when a fetch fails. -/
inductive PollResponse where
  | ok (events : List Event)
  | upstreamError
deriving DecidableEq

/-- Environment of one GetUpdates request: the result of the immediate fetch,
the race outcome, and the result of the refetch after a notification. -/
structure PollEnv where
  fetch1 : Except String (List Event)
  race : RaceResult
  fetch2 : Except String (List Event)

/-- Handlers.GetUpdates after token validation and parameter parsing,
threading the registry state: immediate fetch (error is surfaced, non-empty
returns at once); otherwise subscribe, race the poll timeout against the
notification queue, refetch on notification, and unconditionally unsubscribe
(deferred) on the way out. -/
def getUpdates (st : SubscriberState) (env : PollEnv) (cid : String) :
    PollResponse × SubscriberState :=
  match env.fetch1 with
  | .error _ => (.upstreamError, st)
  | .ok events =>
      if events.length > 0 then (.ok events, st)
      else
        let sub := subscribe st cid
        let result : PollResponse :=
          match env.race with
          | .timeout => .ok []
          | .notified _ =>
              match env.fetch2 with
              | .error _ => .upstreamError
              | .ok evs2 => .ok evs2
        (result, unsubscribe sub.1 cid sub.2)

/-- Outcomes of one Subscriber.Start session as seen by the supervisor
goroutine in registerHooks: Start returns nil when the pub/sub message
channel closes (Redis connection lost), context.Canceled after an explicit
owner Stop, and any other error when establishing the subscription fails. -/
inductive StartOutcome where
  | streamClosed
  | stopCanceled
  | subscribeFailed
deriving DecidableEq

/-- Base backoff of the reconnect supervisor, in seconds (time.Second). -/
def baseBackoffSec : Nat := 1

/-- Backoff ceiling of the reconnect supervisor, in seconds (time.Minute). -/
def maxBackoffSec : Nat := 60

/-- One iteration of the reconnect supervisor loop in registerHooks, given the
current backoff: yields the sleep performed before the next attempt (none
when the loop proceeds immediately), the new backoff value, and whether the
goroutine returns (terminal).  A non-nil, non-Canceled error sleeps the
current backoff then doubles it, capped; a nil return or Canceled resets the
backoff to base, and only Canceled is terminal. -/
def superviseStep (backoff : Nat) : StartOutcome → Option Nat × Nat × Bool
  | .subscribeFailed =>
      let b2 := backoff * 2
      (some backoff, if b2 > maxBackoffSec then maxBackoffSec else b2, false)
  | .stopCanceled => (none, baseBackoffSec, true)
  | .streamClosed => (none, baseBackoffSec, false)

/-! Helper lemmas. -/

/-- Clamping by a conditional assignment agrees with min. -/
theorem clamp_eq_min (a b : Nat) : (if a > b then b else a) = min a b := by
  rw [Nat.min_def]
  by_cases h : a > b
  · rw [if_pos h, if_neg (by omega)]
  · rw [if_neg h, if_pos (by omega)]

/-- The Unsubscribe scan leaves the slice untouched and reports no hit when the
queue is not in it. -/
theorem removeFirst_not_mem (l : List Nat) (ch : Nat) (h : ch ∉ l) :
    removeFirst l ch = (l, false) := by
  induction l with
  | nil => rfl
  | cons q rest ih =>
      have hq : q ≠ ch := fun he => h (he ▸ List.mem_cons_self q rest)
      have hrest : ch ∉ rest := fun hm => h (List.mem_cons_of_mem q hm)
      simp [removeFirst, hq, ih hrest]

/-- In a map whose entries all carry non-empty slices, a key that reads as the
empty slice is absent. -/
theorem lookup_nil_not_key (m : Handlers) (cid : String)
    (hwf : ∀ p ∈ m, p.2 ≠ []) (h : lookupHandlers m cid = []) :
    ∀ p ∈ m, p.1 ≠ cid := by
  induction m with
  | nil => intro p hp; cases hp
  | cons p rest ih =>
      intro p2 hp2
      rcases List.mem_cons.mp hp2 with he | hm
      · subst he
        intro hcid
        rw [lookupHandlers, if_pos hcid] at h
        exact hwf p2 (List.mem_cons_self _ _) h
      · by_cases hc : p.1 = cid
        · rw [lookupHandlers, if_pos hc] at h
          exact absurd h (hwf p (List.mem_cons_self _ _))
        · rw [lookupHandlers, if_neg hc] at h
          exact ih (fun p3 hp3 => hwf p3 (List.mem_cons_of_mem p hp3)) h p2 hm

/-- Deleting an absent key is a no-op. -/
theorem deleteKey_not_key (m : Handlers) (cid : String)
    (h : ∀ p ∈ m, p.1 ≠ cid) : deleteKey m cid = m := by
  induction m with
  | nil => rfl
  | cons p rest ih =>
      rw [deleteKey, if_neg (h p (List.mem_cons_self _ _)),
        ih (fun p2 hp2 => h p2 (List.mem_cons_of_mem p hp2))]

/-- A queue outside the swept slice keeps its buffered contents. -/
theorem deliverList_not_mem (contents : Nat → List EventNotification)
    (n : EventNotification) (qs : List Nat) (q : Nat) (h : q ∉ qs) :
    deliverList contents n qs q = contents q := by
  induction qs generalizing contents with
  | nil => rfl
  | cons a rest ih =>
      have ha : q ≠ a := fun he => h (he ▸ List.mem_cons_self a rest)
      rw [deliverList, ih _ (fun hm => h (List.mem_cons_of_mem a hm))]
      simp [ha]

/-- Each queue of the swept slice (with no duplicates, as holds for the Go
channel slices) receives exactly one non-blocking send attempt. -/
theorem deliverList_mem_nodup (contents : Nat → List EventNotification)
    (n : EventNotification) (qs : List Nat) (q : Nat) (hnd : qs.Nodup) (hq : q ∈ qs) :
    deliverList contents n qs q = trySend (contents q) n := by
  induction qs generalizing contents with
  | nil => cases hq
  | cons a rest ih =>
      rcases List.mem_cons.mp hq with he | hm
      · subst he
        rw [deliverList, deliverList_not_mem _ _ _ _ (List.nodup_cons.mp hnd).1]
        simp
      · have hne : q ≠ a := by
          rintro rfl
          exact (List.nodup_cons.mp hnd).1 hm
        rw [deliverList, ih _ (List.nodup_cons.mp hnd).2 hm]
        simp [hne]

/-- A queue found in a channel's slice is among all registered queues. -/
theorem mem_allQueues_of_mem_lookup (m : Handlers) (cid : String) (q : Nat)
    (h : q ∈ lookupHandlers m cid) : q ∈ allQueues m := by
  induction m with
  | nil => cases h
  | cons p rest ih =>
      rw [lookupHandlers] at h
      rw [allQueues]
      by_cases hc : p.1 = cid
      · rw [if_pos hc] at h
        exact List.mem_append.mpr (Or.inl h)
      · rw [if_neg hc] at h
        exact List.mem_append.mpr (Or.inr (ih h))

/-- Under the registration invariant (no queue registered twice anywhere),
the slices of two different channelIDs are disjoint. -/
theorem lookup_disjoint (m : Handlers) (hnd : (allQueues m).Nodup)
    (c1 c2 : String) (hne : c1 ≠ c2) (q : Nat) (h1 : q ∈ lookupHandlers m c1) :
    q ∉ lookupHandlers m c2 := by
  induction m with
  | nil => cases h1
  | cons p rest ih =>
      rw [allQueues, List.nodup_append] at hnd
      rw [lookupHandlers] at h1 ⊢
      by_cases hp1 : p.1 = c1
      · rw [if_pos hp1] at h1
        rw [if_neg (fun hp2 => hne (hp1.symm.trans hp2))]
        intro h2
        exact hnd.2.2 h1 (mem_allQueues_of_mem_lookup rest c2 q h2)
      · rw [if_neg hp1] at h1
        by_cases hp2 : p.1 = c2
        · rw [if_pos hp2]
          intro h2
          exact hnd.2.2 h2 (mem_allQueues_of_mem_lookup rest c1 q h1)
        · rw [if_neg hp2]
          exact ih hnd.2.1 h1

/-- Counting semaphore safety: starting within the bound, any run of
channel-semaphore events that completes never ends above the bound. -/
theorem semRun_le_bound (n : Nat) (tr : List SemEvent) :
    ∀ s s2 : Nat, s ≤ n → semRun n s tr = some s2 → s2 ≤ n := by
  induction tr with
  | nil =>
      intro s s2 hs h
      rw [semRun] at h
      cases h
      exact hs
  | cons e es ih =>
      intro s s2 hs h
      rw [semRun] at h
      cases e with
      | acquire =>
          rw [semStep] at h
          by_cases hlt : s < n
          · rw [if_pos hlt] at h
            exact ih (s + 1) s2 hlt h
          · rw [if_neg hlt] at h
            cases h
      | release =>
          rw [semStep] at h
          by_cases hpos : 0 < s
          · rw [if_pos hpos] at h
            exact ih (s - 1) s2 (by omega) h
          · rw [if_neg hpos] at h
            cases h

/-- The Unsubscribe scan yields a sublist of the original slice. -/
theorem removeFirst_fst_sublist (l : List Nat) (ch : Nat) :
    (removeFirst l ch).1.Sublist l := by
  induction l with
  | nil => exact List.Sublist.refl _
  | cons q rest ih =>
      by_cases h : q = ch
      · simp only [removeFirst, if_pos h]
        exact List.sublist_cons_self q rest
      · simp only [removeFirst, if_neg h]
        exact List.Sublist.cons₂ q ih

/-- The Unsubscribe scan reports a hit whenever the queue is in the slice. -/
theorem removeFirst_found (l : List Nat) (ch : Nat) (h : ch ∈ l) :
    (removeFirst l ch).2 = true := by
  induction l with
  | nil => cases h
  | cons q rest ih =>
      by_cases hq : q = ch
      · simp [removeFirst, hq]
      · have hm : ch ∈ rest := by
          rcases List.mem_cons.mp h with he | hm
          · exact absurd he.symm hq
          · exact hm
        simp [removeFirst, hq, ih hm]

/-- On a duplicate-free slice, the Unsubscribe scan removes every occurrence
of the queue. -/
theorem not_mem_removeFirst_self (l : List Nat) (ch : Nat) (hnd : l.Nodup) :
    ch ∉ (removeFirst l ch).1 := by
  induction l with
  | nil => exact List.not_mem_nil ch
  | cons q rest ih =>
      by_cases h : q = ch
      · simp only [removeFirst, if_pos h]
        exact h ▸ (List.nodup_cons.mp hnd).1
      · simp only [removeFirst, if_neg h]
        intro hm
        rcases List.mem_cons.mp hm with he | hm2
        · exact h he.symm
        · exact ih (List.nodup_cons.mp hnd).2 hm2

/-- Membership in the registry after a map assignment comes from the new slice
or from the old registry. -/
theorem mem_allQueues_set (m : Handlers) (cid : String) (qs : List Nat) (q2 : Nat)
    (h : q2 ∈ allQueues (setHandlers m cid qs)) : q2 ∈ qs ∨ q2 ∈ allQueues m := by
  induction m with
  | nil =>
      rcases List.mem_append.mp h with h1 | h1
      · exact Or.inl h1
      · cases h1
  | cons p rest ih =>
      by_cases hc : p.1 = cid
      · rw [setHandlers, if_pos hc, allQueues] at h
        rcases List.mem_append.mp h with h1 | h1
        · exact Or.inl h1
        · exact Or.inr (List.mem_append.mpr (Or.inr h1))
      · rw [setHandlers, if_neg hc, allQueues] at h
        rcases List.mem_append.mp h with h1 | h1
        · exact Or.inr (List.mem_append.mpr (Or.inl h1))
        · rcases ih h1 with h2 | h2
          · exact Or.inl h2
          · exact Or.inr (List.mem_append.mpr (Or.inr h2))

/-- Assigning a channel's slice to a sublist of its current slice shrinks the
registry (as a sublist of all registered queues). -/
theorem allQueues_set_sublist (m : Handlers) (cid : String) (qs : List Nat)
    (hsub : qs.Sublist (lookupHandlers m cid)) :
    (allQueues (setHandlers m cid qs)).Sublist (allQueues m) := by
  induction m with
  | nil =>
      rw [lookupHandlers] at hsub
      rw [List.sublist_nil.mp hsub]
      simp [setHandlers, allQueues]
  | cons p rest ih =>
      by_cases hc : p.1 = cid
      · rw [lookupHandlers, if_pos hc] at hsub
        rw [setHandlers, if_pos hc, allQueues, allQueues]
        exact List.Sublist.append hsub (List.Sublist.refl _)
      · rw [lookupHandlers, if_neg hc] at hsub
        rw [setHandlers, if_neg hc, allQueues, allQueues]
        exact List.Sublist.append (List.Sublist.refl _) (ih hsub)

/-- Deleting a map entry shrinks the registry. -/
theorem allQueues_deleteKey_sublist (m : Handlers) (cid : String) :
    (allQueues (deleteKey m cid)).Sublist (allQueues m) := by
  induction m with
  | nil => exact List.Sublist.refl _
  | cons p rest ih =>
      by_cases hc : p.1 = cid
      · rw [deleteKey, if_pos hc, allQueues]
        exact ih.trans (List.sublist_append_right p.2 _)
      · rw [deleteKey, if_neg hc, allQueues, allQueues]
        exact List.Sublist.append (List.Sublist.refl _) ih

/-- After assigning the scan result back, the removed queue is registered
nowhere (it occurred only once, by the registration invariant). -/
theorem notMem_allQueues_set_remove (m : Handlers) (cid : String) (q : Nat)
    (hnd : (allQueues m).Nodup) (hq : q ∈ lookupHandlers m cid) :
    q ∉ allQueues (setHandlers m cid (removeFirst (lookupHandlers m cid) q).1) := by
  induction m with
  | nil => cases hq
  | cons p rest ih =>
      rw [allQueues, List.nodup_append] at hnd
      by_cases hc : p.1 = cid
      · rw [lookupHandlers, if_pos hc] at hq ⊢
        rw [setHandlers, if_pos hc, allQueues]
        intro hm
        rcases List.mem_append.mp hm with h1 | h1
        · exact not_mem_removeFirst_self p.2 q hnd.1 h1
        · exact hnd.2.2 hq h1
      · rw [lookupHandlers, if_neg hc] at hq ⊢
        rw [setHandlers, if_neg hc, allQueues]
        intro hm
        rcases List.mem_append.mp hm with h1 | h1
        · exact hnd.2.2 h1 (mem_allQueues_of_mem_lookup rest cid q hq)
        · exact ih hnd.2.1 hq h1

/-- Unsubscribe never grows the registry. -/
theorem allQueues_unsubscribe_sublist (s : SubscriberState) (cid : String) (ch : Nat) :
    (allQueues (unsubscribe s cid ch).handlers).Sublist (allQueues s.handlers) := by
  by_cases hf : (removeFirst (lookupHandlers s.handlers cid) ch).2 = true
  · have hh : (unsubscribe s cid ch).handlers =
        if lookupHandlers
            (setHandlers s.handlers cid (removeFirst (lookupHandlers s.handlers cid) ch).1)
            cid = [] then
          deleteKey
            (setHandlers s.handlers cid (removeFirst (lookupHandlers s.handlers cid) ch).1)
            cid
        else
          setHandlers s.handlers cid (removeFirst (lookupHandlers s.handlers cid) ch).1 := by
      simp [unsubscribe, hf]
    have hset := allQueues_set_sublist s.handlers cid _ (removeFirst_fst_sublist _ ch)
    rw [hh]
    split
    · exact (allQueues_deleteKey_sublist _ cid).trans hset
    · exact hset
  · have hh : (unsubscribe s cid ch).handlers =
        if lookupHandlers s.handlers cid = [] then deleteKey s.handlers cid
        else s.handlers := by
      simp [unsubscribe, hf]
    rw [hh]
    split
    · exact allQueues_deleteKey_sublist _ cid
    · exact List.Sublist.refl _

/-- Completed removal: once Unsubscribe returns, a queue that was registered
for the channel is registered nowhere in the registry. -/
theorem unsubscribe_removes (s : SubscriberState) (cid : String) (q : Nat)
    (hnd : (allQueues s.handlers).Nodup) (hq : q ∈ lookupHandlers s.handlers cid) :
    q ∉ allQueues (unsubscribe s cid q).handlers := by
  have hf : (removeFirst (lookupHandlers s.handlers cid) q).2 = true :=
    removeFirst_found _ _ hq
  have hset := notMem_allQueues_set_remove s.handlers cid q hnd hq
  have hh : (unsubscribe s cid q).handlers =
      if lookupHandlers
          (setHandlers s.handlers cid (removeFirst (lookupHandlers s.handlers cid) q).1)
          cid = [] then
        deleteKey
          (setHandlers s.handlers cid (removeFirst (lookupHandlers s.handlers cid) q).1)
          cid
      else
        setHandlers s.handlers cid (removeFirst (lookupHandlers s.handlers cid) q).1 := by
    simp [unsubscribe, hf]
  rw [hh]
  split
  · intro hm
    exact hset ((allQueues_deleteKey_sublist _ cid).subset hm)
  · exact hset

/-- Retirement is stable under every atomic registry operation: a Subscribe
allocates a strictly fresh identifier, an Unsubscribe only removes, and a
delivery sweep does not touch the map. -/
theorem retired_regStep (s : SubscriberState) (op : RegOp) (q : Nat)
    (h : retired s q) : retired (regStep s op) q := by
  cases op with
  | sub cid =>
      refine ⟨?_, ?_⟩
      · intro hm
        simp only [regStep, subscribe] at hm
        rcases mem_allQueues_set s.handlers cid _ q hm with h1 | h1
        · rcases List.mem_append.mp h1 with h2 | h2
          · exact h.1 (mem_allQueues_of_mem_lookup s.handlers cid q h2)
          · have he : q = s.nextId := List.mem_singleton.mp h2
            have hlt := h.2
            omega
        · exact h.1 h1
      · have hlt := h.2
        show q < s.nextId + 1
        omega
  | unsub cid q2 =>
      exact ⟨fun hm => h.1 ((allQueues_unsubscribe_sublist s cid q2).subset hm),
        h.2⟩
  | deliver n => exact h

/-- A delivery sweep attempts sends only on currently registered queues, so
never on a retired one; Subscribe and Unsubscribe send nothing. -/
theorem not_mem_sendsOf (s : SubscriberState) (op : RegOp) (q : Nat)
    (h : retired s q) : q ∉ sendsOf s op := by
  cases op with
  | sub cid => exact List.not_mem_nil q
  | unsub cid q2 => exact List.not_mem_nil q
  | deliver n =>
      intro hm
      exact h.1 (mem_allQueues_of_mem_lookup s.handlers n.channelID q hm)

/-- A retired queue receives no send attempt along any subsequent sequence of
atomic registry operations. -/
theorem not_mem_allSends (q : Nat) (ops : List RegOp) :
    ∀ s : SubscriberState, retired s q → q ∉ allSends s ops := by
  induction ops with
  | nil => intro s _; exact List.not_mem_nil q
  | cons op rest ih =>
      intro s h hm
      rcases List.mem_append.mp hm with h1 | h1
      · exact not_mem_sendsOf s op q h h1
      · exact ih (regStep s op) (retired_regStep s op q h) h1

/-- Subscribe adds exactly the fresh queue to the registry, up to order. -/
theorem allQueues_subscribe_perm (m : Handlers) (cid : String) (ch : Nat) :
    List.Perm (allQueues (setHandlers m cid (lookupHandlers m cid ++ [ch])))
      (ch :: allQueues m) := by
  induction m with
  | nil => simp [lookupHandlers, setHandlers, allQueues]
  | cons p rest ih =>
      by_cases hc : p.1 = cid
      · rw [lookupHandlers, if_pos hc, setHandlers, if_pos hc, allQueues, allQueues,
          List.append_assoc]
        exact List.perm_middle
      · rw [lookupHandlers, if_neg hc, setHandlers, if_neg hc, allQueues, allQueues]
        exact (ih.append_left p.2).trans List.perm_middle

/-- The registration invariant holds in every reachable state: it is preserved
by each atomic registry operation. -/
theorem regStep_preserves_inv (s : SubscriberState) (op : RegOp)
    (hinv : RegistryInv s) : RegistryInv (regStep s op) := by
  cases op with
  | sub cid =>
      have hperm := allQueues_subscribe_perm s.handlers cid s.nextId
      constructor
      · intro q hq
        simp only [regStep, subscribe] at hq
        have hq2 : q ∈ s.nextId :: allQueues s.handlers := hperm.subset hq
        show q < s.nextId + 1
        rcases List.mem_cons.mp hq2 with he | hm
        · omega
        · have := hinv.1 q hm
          omega
      · show (allQueues (setHandlers s.handlers cid
            (lookupHandlers s.handlers cid ++ [s.nextId]))).Nodup
        refine hperm.nodup_iff.mpr (List.nodup_cons.mpr ⟨?_, hinv.2⟩)
        intro hm
        exact absurd (hinv.1 _ hm) (by omega)
  | unsub cid q2 =>
      refine ⟨?_, ?_⟩
      · intro q hq
        have hm := (allQueues_unsubscribe_sublist s cid q2).subset hq
        show q < s.nextId
        exact hinv.1 q hm
      · exact List.Nodup.sublist (allQueues_unsubscribe_sublist s cid q2) hinv.2
  | deliver n => exact hinv

/-! Claim theorems. -/

/-- C1: under the lock discipline of subscriber.go (a delivery sweep holds the
read lock for its whole duration, Unsubscribe holds the write lock), every
concurrent execution is a sequence of atomic registry operations; starting
from any state satisfying the reachable-state invariant, once
unsubscribe(channelID, queue) has completed for a queue registered under
that channelID, no later operation sequence ever attempts a send on that
queue. -/
theorem no_send_after_unsubscribe (s : SubscriberState) (cid : String) (q : Nat)
    (hinv : RegistryInv s) (hq : q ∈ lookupHandlers s.handlers cid) (ops : List RegOp) :
    q ∉ allSends (regStep s (RegOp.unsub cid q)) ops := by
  apply not_mem_allSends
  refine ⟨?_, ?_⟩
  · show q ∉ allQueues (unsubscribe s cid q).handlers
    exact unsubscribe_removes s cid q hinv.2 hq
  · show q < s.nextId
    exact hinv.1 q (mem_allQueues_of_mem_lookup s.handlers cid q hq)

/-- Witness for C1: queue 0 is registered for channel "a"; after its
unsubscribe, sweeps for "a" — even after a new subscription to "a" — never
send on queue 0. -/
theorem no_send_after_unsubscribe_witness :
    RegistryInv ⟨[("a", [0])], 1, []⟩ ∧
    0 ∈ lookupHandlers [("a", [0])] "a" ∧
    0 ∉ allSends (regStep ⟨[("a", [0])], 1, []⟩ (RegOp.unsub "a" 0))
        [RegOp.deliver ⟨"a", 7, 8⟩, RegOp.sub "a", RegOp.deliver ⟨"a", 9, 10⟩] :=
  ⟨⟨by decide, by decide⟩, by decide,
    no_send_after_unsubscribe ⟨[("a", [0])], 1, []⟩ "a" 0 ⟨by decide, by decide⟩ (by decide)
      [RegOp.deliver ⟨"a", 7, 8⟩, RegOp.sub "a", RegOp.deliver ⟨"a", 9, 10⟩]⟩

/-- C10: Unsubscribe is idempotent: from any registry state whose entries are
all non-empty (an invariant of reachable states), unsubscribing a queue that
is not registered under the given channelID (already removed, never
registered, or an absent channelID) leaves the Subscriber state unchanged —
in particular the handlers map is untouched and no queue is closed. -/
theorem unsubscribe_absent_queue_noop (s : SubscriberState) (cid : String) (ch : Nat)
    (hwf : ∀ p ∈ s.handlers, p.2 ≠ [])
    (hch : ch ∉ lookupHandlers s.handlers cid) :
    unsubscribe s cid ch = s := by
  have hr := removeFirst_not_mem _ _ hch
  by_cases h0 : lookupHandlers s.handlers cid = []
  · have hnk := lookup_nil_not_key _ _ hwf h0
    simp [unsubscribe, removeFirst, h0, deleteKey_not_key _ _ hnk]
  · simp [unsubscribe, hr, h0]

/-- Witness for C10 at a concrete state: channel "a" holds queue 0 only, so
unsubscribing queue 5 changes nothing. -/
theorem unsubscribe_absent_queue_noop_witness :
    (∀ p ∈ (⟨[("a", [0])], 1, []⟩ : SubscriberState).handlers, p.2 ≠ []) ∧
    5 ∉ lookupHandlers (⟨[("a", [0])], 1, []⟩ : SubscriberState).handlers "a" ∧
    unsubscribe ⟨[("a", [0])], 1, []⟩ "a" 5 = ⟨[("a", [0])], 1, []⟩ :=
  ⟨by decide, by decide,
    unsubscribe_absent_queue_noop ⟨[("a", [0])], 1, []⟩ "a" 5 (by decide) (by decide)⟩

/-- C3: a poll whose immediate fetch returns the empty page and whose wait
ends by the poll timeout responds with HTTP 200 and an empty events array —
never an error. -/
theorem poll_timeout_returns_empty_ok (st : SubscriberState) (env : PollEnv) (cid : String)
    (h1 : env.fetch1 = Except.ok []) (h2 : env.race = RaceResult.timeout) :
    (getUpdates st env cid).1 = PollResponse.ok [] := by
  simp [getUpdates, h1, h2]

/-- Witness for C3 at a concrete environment. -/
theorem poll_timeout_returns_empty_ok_witness :
    (⟨Except.ok [], RaceResult.timeout, Except.ok []⟩ : PollEnv).fetch1 = Except.ok [] ∧
    (⟨Except.ok [], RaceResult.timeout, Except.ok []⟩ : PollEnv).race = RaceResult.timeout ∧
    (getUpdates ⟨[], 0, []⟩ ⟨Except.ok [], RaceResult.timeout, Except.ok []⟩ "a").1 =
      PollResponse.ok [] :=
  ⟨rfl, rfl, poll_timeout_returns_empty_ok ⟨[], 0, []⟩ _ "a" rfl rfl⟩

/-- C7: a poll whose immediate fetch returns a non-empty page responds with
exactly those events and returns before Subscribe is reached: the registry
state is returned unchanged (no registration is created). -/
theorem poll_immediate_nonempty_frame (st : SubscriberState) (env : PollEnv) (cid : String)
    (evs : List Event) (h1 : env.fetch1 = Except.ok evs) (hne : evs ≠ []) :
    getUpdates st env cid = (PollResponse.ok evs, st) := by
  have hl : 0 < evs.length := List.length_pos.mpr hne
  simp [getUpdates, h1, hl]

/-- Witness for C7: one immediate event, and a registry state that comes back
bit-for-bit unchanged. -/
theorem poll_immediate_nonempty_frame_witness :
    (⟨Except.ok [⟨5, "x", 7⟩], RaceResult.timeout, Except.ok []⟩ : PollEnv).fetch1 =
      Except.ok [(⟨5, "x", 7⟩ : Event)] ∧
    ([(⟨5, "x", 7⟩ : Event)] ≠ []) ∧
    getUpdates ⟨[("b", [3])], 4, []⟩
        ⟨Except.ok [⟨5, "x", 7⟩], RaceResult.timeout, Except.ok []⟩ "a" =
      (PollResponse.ok [⟨5, "x", 7⟩], ⟨[("b", [3])], 4, []⟩) :=
  ⟨rfl, by decide,
    poll_immediate_nonempty_frame ⟨[("b", [3])], 4, []⟩ _ "a" [⟨5, "x", 7⟩] rfl (by decide)⟩

/-- C4: when no permit becomes available before the caller's context is done,
GetEvents returns the context error (the spec's PoolExhausted/Canceled) and
its trace is empty: no backend request is issued. -/
theorem getEvents_no_permit_poolExhausted (maxLimit : Nat) (env : PoolEnv) (cid : String)
    (off : Int) (lim : Nat) (h : env.permitAvailable = false) :
    getEvents maxLimit env cid off lim = (UpstreamResult.poolExhausted, []) := by
  simp [getEvents, h]

/-- Witness for C4 at a concrete environment with no free permit. -/
theorem getEvents_no_permit_poolExhausted_witness :
    (⟨false, BackendReply.okReply []⟩ : PoolEnv).permitAvailable = false ∧
    getEvents 100 ⟨false, BackendReply.okReply []⟩ "c" 0 50 =
      (UpstreamResult.poolExhausted, []) :=
  ⟨rfl, getEvents_no_permit_poolExhausted 100 _ "c" 0 50 rfl⟩

/-- C9, counterexample: the claim places the limit clamp (step 1) before the
permit acquisition (step 2), but on a concrete call the trace acquires the
permit first and clamps after: the clamp step does not occur before the
acquire step. -/
theorem getEvents_clamp_order_counterexample :
    (getEvents 100 ⟨true, BackendReply.okReply []⟩ "c" 0 150).2 =
      [PoolStep.acquirePermit, PoolStep.clampLimit 100,
       PoolStep.httpRequest "c" 0 100, PoolStep.releasePermit] ∧
    ¬ ((getEvents 100 ⟨true, BackendReply.okReply []⟩ "c" 0 150).2.findIdx isClampStep <
       (getEvents 100 ⟨true, BackendReply.okReply []⟩ "c" 0 150).2.findIdx isAcquireStep) := by
  decide

/-- C9, amended: whenever a permit is acquired, GetEvents performs, in order,
the acquisition, then the clamp of limit to min(requested, maxLimit), then
the single backend request carrying exactly the clamped limit, then the
permit release. -/
theorem getEvents_acquire_then_clamp (maxLimit : Nat) (env : PoolEnv) (cid : String)
    (off : Int) (lim : Nat) (h : env.permitAvailable = true) :
    (getEvents maxLimit env cid off lim).2 =
      [PoolStep.acquirePermit, PoolStep.clampLimit (min lim maxLimit),
       PoolStep.httpRequest cid off (min lim maxLimit), PoolStep.releasePermit] := by
  simp [getEvents, h, clamp_eq_min]

/-- Witness for the amended C9: requested limit 150, cap 100, request carries
min 150 100. -/
theorem getEvents_acquire_then_clamp_witness :
    (⟨true, BackendReply.okReply []⟩ : PoolEnv).permitAvailable = true ∧
    (getEvents 100 ⟨true, BackendReply.okReply []⟩ "c" 0 150).2 =
      [PoolStep.acquirePermit, PoolStep.clampLimit (min 150 100),
       PoolStep.httpRequest "c" 0 (min 150 100), PoolStep.releasePermit] :=
  ⟨rfl, getEvents_acquire_then_clamp 100 _ "c" 0 150 rfl⟩

/-- C5: in a delivery sweep for a parsed notification, the enqueue is
non-blocking: a full queue keeps its contents (the event is dropped for that
registration only), while every registration of the channel still receives
its send attempt (enqueue when there is room, drop when full), and the
handlers map is untouched. -/
theorem handleMessage_full_queue_drops (st : RegState) (n : EventNotification) (q : Nat)
    (hnd : (lookupHandlers st.handlers n.channelID).Nodup)
    (hq : q ∈ lookupHandlers st.handlers n.channelID)
    (hfull : queueCapacity ≤ (st.contents q).length) :
    (handleMessage st n).contents q = st.contents q ∧
    (∀ q2 ∈ lookupHandlers st.handlers n.channelID,
        (handleMessage st n).contents q2 = trySend (st.contents q2) n) ∧
    (handleMessage st n).handlers = st.handlers := by
  refine ⟨?_, ?_, rfl⟩
  · have h := deliverList_mem_nodup st.contents n _ q hnd hq
    show deliverList st.contents n (lookupHandlers st.handlers n.channelID) q = st.contents q
    rw [h, trySend, if_neg (by omega)]
  · intro q2 hq2
    exact deliverList_mem_nodup st.contents n _ q2 hnd hq2

/-- Witness for C5: channel "a" has queues 0 (already holding 10 buffered
notifications, i.e. full) and 1 (empty); the sweep drops on queue 0 and
enqueues on queue 1. -/
theorem handleMessage_full_queue_drops_witness :
    (lookupHandlers [("a", [0, 1])] "a").Nodup ∧
    0 ∈ lookupHandlers [("a", [0, 1])] "a" ∧
    queueCapacity ≤ (List.replicate 10 (⟨"a", 0, 0⟩ : EventNotification)).length ∧
    (handleMessage
        ⟨[("a", [0, 1])], fun i => if i = 0 then List.replicate 10 ⟨"a", 0, 0⟩ else []⟩
        ⟨"a", 1, 2⟩).contents 0 = List.replicate 10 ⟨"a", 0, 0⟩ ∧
    (handleMessage
        ⟨[("a", [0, 1])], fun i => if i = 0 then List.replicate 10 ⟨"a", 0, 0⟩ else []⟩
        ⟨"a", 1, 2⟩).contents 1 = trySend [] ⟨"a", 1, 2⟩ :=
  ⟨by decide, by decide, by decide,
    (handleMessage_full_queue_drops
      ⟨[("a", [0, 1])], fun i => if i = 0 then List.replicate 10 ⟨"a", 0, 0⟩ else []⟩
      ⟨"a", 1, 2⟩ 0 (by decide) (by decide) (by decide)).1,
    (handleMessage_full_queue_drops
      ⟨[("a", [0, 1])], fun i => if i = 0 then List.replicate 10 ⟨"a", 0, 0⟩ else []⟩
      ⟨"a", 1, 2⟩ 0 (by decide) (by decide) (by decide)).2.1 1 (by decide)⟩

/-- C8: a delivery sweep for one channel's notification leaves every queue
registered under any other channelID unchanged (queues are never registered
twice, the reachable-state invariant), and leaves the handlers map
unchanged. -/
theorem handleMessage_other_channel_frame (st : RegState) (n : EventNotification)
    (cid2 : String) (q : Nat)
    (hnd : (allQueues st.handlers).Nodup)
    (hcid : cid2 ≠ n.channelID)
    (hq : q ∈ lookupHandlers st.handlers cid2) :
    (handleMessage st n).contents q = st.contents q ∧
    (handleMessage st n).handlers = st.handlers :=
  ⟨deliverList_not_mem st.contents n _ q
      (lookup_disjoint st.handlers hnd cid2 n.channelID hcid q hq), rfl⟩

/-- Witness for C8: a notification on channel "a" leaves channel "b"'s queue 1
untouched. -/
theorem handleMessage_other_channel_frame_witness :
    (allQueues [("a", [0]), ("b", [1])]).Nodup ∧
    ("b" ≠ "a") ∧
    1 ∈ lookupHandlers [("a", [0]), ("b", [1])] "b" ∧
    (handleMessage ⟨[("a", [0]), ("b", [1])], fun _ => []⟩ ⟨"a", 1, 2⟩).contents 1 = [] :=
  ⟨by decide, by decide, by decide,
    (handleMessage_other_channel_frame ⟨[("a", [0]), ("b", [1])], fun _ => []⟩
      ⟨"a", 1, 2⟩ "b" 1 (by decide) (by decide) (by decide)).1⟩

/-- C6: the permit count never exceeds the pool's concurrency ceiling n — any
completed run of semaphore events starting within the bound ends within it —
and GetEvents releases every permit it acquires: on every exit path its
trace balances acquisitions with releases, and running its semaphore events
from any in-bound permit count returns to that count. -/
theorem pool_permits_bounded_and_released (n s s2 : Nat) (tr : List SemEvent)
    (hs : s ≤ n) (hrun : semRun n s tr = some s2) :
    s2 ≤ n ∧
    (∀ (maxLimit : Nat) (env : PoolEnv) (cid : String) (off : Int) (lim : Nat),
        (getEvents maxLimit env cid off lim).2.count PoolStep.acquirePermit =
        (getEvents maxLimit env cid off lim).2.count PoolStep.releasePermit) ∧
    (∀ (maxLimit : Nat) (env : PoolEnv) (cid : String) (off : Int) (lim : Nat) (s3 : Nat),
        s3 < n →
        semRun n s3 (semEventsOf (getEvents maxLimit env cid off lim).2) = some s3) := by
  refine ⟨semRun_le_bound n tr s s2 hs hrun, ?_, ?_⟩
  · intro maxLimit env cid off lim
    cases hp : env.permitAvailable <;>
      simp [getEvents, hp, List.count_cons, List.count_nil]
  · intro maxLimit env cid off lim s3 hs3
    cases hp : env.permitAvailable <;>
      simp [getEvents, hp, semEventsOf, semRun, semStep, hs3, Nat.lt_irrefl]

/-- Witness for C6: with ceiling 2 and one permit out, one more acquisition
reaches 2 which is still within the bound; a concrete GetEvents trace
balances its acquire with its release and returns the semaphore to its
starting count. -/
theorem pool_permits_bounded_and_released_witness :
    1 ≤ 2 ∧ semRun 2 1 [SemEvent.acquire] = some 2 ∧
    2 ≤ 2 ∧
    ((getEvents 100 ⟨true, BackendReply.okReply []⟩ "c" 0 5).2.count PoolStep.acquirePermit =
      (getEvents 100 ⟨true, BackendReply.okReply []⟩ "c" 0 5).2.count PoolStep.releasePermit) ∧
    semRun 2 0 (semEventsOf (getEvents 100 ⟨true, BackendReply.okReply []⟩ "c" 0 5).2) =
      some 0 :=
  ⟨by decide, by decide,
    (pool_permits_bounded_and_released 2 1 2 [SemEvent.acquire] (by decide) (by decide)).1,
    (pool_permits_bounded_and_released 2 1 2 [SemEvent.acquire] (by decide)
      (by decide)).2.1 100 ⟨true, BackendReply.okReply []⟩ "c" 0 5,
    (pool_permits_bounded_and_released 2 1 2 [SemEvent.acquire] (by decide)
      (by decide)).2.2 100 ⟨true, BackendReply.okReply []⟩ "c" 0 5 0 (by decide)⟩

/-- C2, code evaluated at the failing input: when Subscriber.Start returns nil
because the pub/sub message stream closed (a feed disconnection without an
owner stop) with current backoff 8s, the supervisor sleeps nothing, resets
backoff to base, and reconnects immediately — whereas on an error return it
does sleep the current 8s and doubles to 16s.  The claim requires the
backoff wait on every disconnection, including the stream-closed one. -/
theorem supervisor_stream_closed_no_backoff :
    superviseStep 8 StartOutcome.streamClosed = (none, baseBackoffSec, false) ∧
    superviseStep 8 StartOutcome.subscribeFailed = (some 8, 16, false) := by
  decide

end LongPoll
